import Mathlib

/-!
# Verification of the RESILIENT_AI python-mesh core

Shallow embedding of `src/python-mesh/mesh_protocol.py` and
`src/python-mesh/mesh_node.py`, together with theorems settling the frozen
claims about the natural-language specification.

Conventions of the embedding:
* Python `bytes` values are `List Nat` with every element below 256.
* Machine integers are `Nat`; overflow points of the source (`struct.pack`
  range checks, the 16-bit CRC mask, 32-bit SHA-256 arithmetic) carry
  explicit `% 2^w` masks or range guards.
* Fallible code (`struct.pack` / `struct.unpack` raising, `ValueError` in
  `MeshPacket.from_bytes`) becomes `Except CodecErr`.  The error kinds use
  the spec's names: a `struct.error` on a field is `BadField`, the
  "Packet too small" `ValueError` is `Truncated`, the "CRC mismatch"
  `ValueError` is `CrcMismatch`.
-/

/-- Error kinds of the codec, following §7 of the specification.  The source
raises `struct.error` (here `BadField`) and `ValueError` with the messages
"Packet too small" (here `Truncated`) and "CRC mismatch" (here
`CrcMismatch`). -/
inductive CodecErr where
  | BadField
  | Truncated
  | CrcMismatch
deriving DecidableEq, Repr

/-- `MessageType` constants from `mesh_protocol.py`. -/
def MessageType.SOS : Nat := 0x01

/-- `MessageType.DIRECT = 0x02`. -/
def MessageType.DIRECT : Nat := 0x02

/-- `MessageType.RELAY = 0x03`. -/
def MessageType.RELAY : Nat := 0x03

/-- `MessageType.ACK = 0x04`. -/
def MessageType.ACK : Nat := 0x04

/-- The `MeshPacket` class of `mesh_protocol.py`.  `message_uuid` is the
16-byte `uuid.UUID.bytes` value; `sender_uuid` and `payload` are raw byte
strings. -/
structure MeshPacket where
  protocol_version : Nat
  message_type : Nat
  message_uuid : List Nat
  hop_count : Nat
  ttl : Nat
  timestamp : Nat
  sender_uuid : List Nat
  payload : List Nat
deriving DecidableEq, Repr

/-- `MeshPacket.PROTOCOL_VERSION = 0x01`. -/
def MeshPacket.PROTOCOL_VERSION : Nat := 0x01

/-- `MeshPacket.HEADER_SIZE = 32`. -/
def MeshPacket.HEADER_SIZE : Nat := 32

/-- `MeshPacket.CRC_SIZE = 2`. -/
def MeshPacket.CRC_SIZE : Nat := 2

/-- One shift iteration of the inner loop of `_calculate_crc16`: shift left,
conditionally XOR the polynomial `0x1021`, and mask to 16 bits (the source
masks with `crc &= 0xFFFF` at the end of every iteration). -/
def crcShift (crc : Nat) : Nat :=
  let shifted := if crc &&& 0x8000 ≠ 0 then (crc <<< 1) ^^^ 0x1021 else crc <<< 1
  shifted &&& 0xFFFF

/-- Per-byte step of `_calculate_crc16`: XOR the byte into the high half of
the register, then run eight shift iterations. -/
def crcByteStep (crc b : Nat) : Nat :=
  List.foldl (fun c _ => crcShift c) (crc ^^^ (b <<< 8)) (List.range 8)

/-- `MeshPacket._calculate_crc16`: CRC-16-CCITT, init `0xFFFF`, polynomial
`0x1021`, no reflection, no final XOR. -/
def crc16 (data : List Nat) : Nat :=
  data.foldl crcByteStep 0xFFFF

/-- `struct.pack '>I'` byte image of a 32-bit big-endian integer. -/
def be32enc (x : Nat) : List Nat :=
  [x / 16777216 % 256, x / 65536 % 256, x / 256 % 256, x % 256]

/-- `struct.pack '>H'` byte image of a 16-bit big-endian integer. -/
def be16enc (x : Nat) : List Nat :=
  [x / 256 % 256, x % 256]

/-- Big-endian value of a byte string (used for `struct.unpack` of `>H`
and `>I` fields). -/
def beVal (l : List Nat) : Nat :=
  l.foldl (fun a b => a * 256 + b) 0

/-- `struct.pack 'ns'` semantics for a fixed-width byte field: truncate to
`n` bytes and zero-pad on the right. -/
def packFixed (n : Nat) (s : List Nat) : List Nat :=
  s.take n ++ List.replicate (n - s.length) 0

/-- The 32-byte header built by `MeshPacket.to_bytes` via
`struct.pack('>BB16sBBI6sH', ...)`.  The source passes `sender_uuid[:6]` to
the `6s` field. -/
def MeshPacket.header (p : MeshPacket) : List Nat :=
  [p.protocol_version, p.message_type]
    ++ packFixed 16 p.message_uuid
    ++ [p.hop_count, p.ttl]
    ++ be32enc p.timestamp
    ++ packFixed 6 (p.sender_uuid.take 6)
    ++ be16enc p.payload.length

/-- `MeshPacket.to_bytes`.  `struct.pack` raises `struct.error` when a
`B` field exceeds one byte, the `I` field exceeds 32 bits, or the `H`
field (the payload length) exceeds 16 bits; the fixed `16s`/`6s` fields
never raise (they truncate or zero-pad).  The range guards of all packed
fields are gathered into one test because the source surfaces every such
failure as the same exception. -/
def MeshPacket.to_bytes (p : MeshPacket) : Except CodecErr (List Nat) :=
  if p.protocol_version ≤ 255 ∧ p.message_type ≤ 255 ∧ p.hop_count ≤ 255
      ∧ p.ttl ≤ 255 ∧ p.timestamp < 4294967296 ∧ p.payload.length ≤ 65535 then
    let header := p.header
    let crc := crc16 (header ++ p.payload)
    .ok (header ++ be16enc crc ++ p.payload)
  else
    .error .BadField

/-- `data[i]` as read by `struct.unpack` (callers guard the length). -/
def byteAt (data : List Nat) (i : Nat) : Nat :=
  (data.drop i).headD 0

/-- `message_type` field of `from_bytes` (offset 1). -/
def fbMt (data : List Nat) : Nat := byteAt data 1

/-- `message_uuid` field of `from_bytes` (offsets 2–17). -/
def fbUuid (data : List Nat) : List Nat := (data.drop 2).take 16

/-- `hop_count` field of `from_bytes` (offset 18). -/
def fbHop (data : List Nat) : Nat := byteAt data 18

/-- `ttl` field of `from_bytes` (offset 19). -/
def fbTtl (data : List Nat) : Nat := byteAt data 19

/-- `timestamp` field of `from_bytes` (offsets 20–23, big-endian). -/
def fbTs (data : List Nat) : Nat := beVal ((data.drop 20).take 4)

/-- `sender_uuid` field of `from_bytes` (offsets 24–29). -/
def fbSender (data : List Nat) : List Nat := (data.drop 24).take 6

/-- `payload_length` field of `from_bytes` (offsets 30–31, big-endian). -/
def fbPlen (data : List Nat) : Nat := beVal ((data.drop 30).take 2)

/-- CRC read at offset 32 by `from_bytes`. -/
def fbRcrc (data : List Nat) : Nat := beVal ((data.drop 32).take 2)

/-- Payload slice `data[34 : 34 + payload_length]` of `from_bytes`; Python
slicing silently yields fewer bytes when the data runs out. -/
def fbPayload (data : List Nat) : List Nat := (data.drop 34).take (fbPlen data)

/-- CRC recomputed by `from_bytes` over `header + payload`. -/
def fbCalcCrc (data : List Nat) : Nat := crc16 (data.take 32 ++ fbPayload data)

/-- `MeshPacket.from_bytes`, at clock reading `now` (the value
`int(time.time())` would return at the moment of the call).  Requires at
least `HEADER_SIZE + CRC_SIZE = 34` bytes, parses the header fields at
their offsets, slices the payload, and compares the received CRC with the
recomputed one.  The parsed fields are routed through `cls(...)`, i.e.
`__init__`, which (a) discards the parsed `protocol_version` byte and sets
`protocol_version = PROTOCOL_VERSION` (0x01) unconditionally, and
(b) applies `timestamp or int(time.time())`, so a parsed timestamp of 0 is
falsy and is replaced by the current time.  (`sender_uuid or b'\x00' * 6`
never fires here: the unpacked `6s` field is a six-byte, hence truthy,
bytes value.) -/
def MeshPacket.from_bytes (now : Nat) (data : List Nat) : Except CodecErr MeshPacket :=
  if data.length < MeshPacket.HEADER_SIZE + MeshPacket.CRC_SIZE then
    .error .Truncated
  else if fbRcrc data ≠ fbCalcCrc data then
    .error .CrcMismatch
  else
    .ok
      { protocol_version := MeshPacket.PROTOCOL_VERSION
        message_type := fbMt data
        message_uuid := fbUuid data
        hop_count := fbHop data
        ttl := fbTtl data
        timestamp := if fbTs data = 0 then now else fbTs data
        sender_uuid := fbSender data
        payload := fbPayload data }

/-- Validity of a packet as constructed by the Python class: `message_uuid`
is a `uuid.UUID` (so its `bytes` are exactly 16), `protocol_version` is the
class constant, `sender_uuid` is exactly 6 bytes, the timestamp fits 32
bits, the payload fits the 16-bit length field, and the one-byte fields are
in range. -/
def MeshPacket.Valid (p : MeshPacket) : Prop :=
  p.protocol_version = 1 ∧ p.message_uuid.length = 16
    ∧ p.sender_uuid.length = 6 ∧ p.timestamp < 4294967296
    ∧ p.payload.length ≤ 65535 ∧ p.hop_count ≤ 255 ∧ p.ttl ≤ 255
    ∧ p.message_type ≤ 255

instance (p : MeshPacket) : Decidable p.Valid := by
  unfold MeshPacket.Valid; infer_instance

deriving instance DecidableEq for Except

/-! ## List and arithmetic helper lemmas -/

theorem takeApp {α : Type} (l e : List α) (n : Nat) (h : l.length = n) :
    (l ++ e).take n = l := by
  subst h
  induction l with
  | nil => simp
  | cons a t ih => simp [ih]

theorem dropApp {α : Type} (l e : List α) (n : Nat) (h : l.length = n) :
    (l ++ e).drop n = e := by
  subst h
  induction l with
  | nil => simp
  | cons a t ih => simp [ih]

theorem takeAppLe {α : Type} (l e : List α) (n : Nat) (h : n ≤ l.length) :
    (l ++ e).take n = l.take n := by
  induction l generalizing n with
  | nil =>
    have : n = 0 := by simpa using h
    simp [this]
  | cons a t ih =>
    cases n with
    | zero => simp
    | succ m => simp [ih m (by simpa using h)]

theorem dropAppLe {α : Type} (l e : List α) (n : Nat) (h : n ≤ l.length) :
    (l ++ e).drop n = l.drop n ++ e := by
  induction l generalizing n with
  | nil =>
    have : n = 0 := by simpa using h
    simp [this]
  | cons a t ih =>
    cases n with
    | zero => simp
    | succ m => simp [ih m (by simpa using h)]

theorem takeDropApp (l e : List Nat) (k m : Nat) (h : k + m ≤ l.length) :
    ((l ++ e).drop k).take m = (l.drop k).take m := by
  rw [dropAppLe l e k (by omega), takeAppLe _ _ m (by simp; omega)]

theorem byteAtApp (l e : List Nat) (i : Nat) (h : i < l.length) :
    byteAt (l ++ e) i = byteAt l i := by
  rw [byteAt, byteAt, dropAppLe l e i (by omega)]
  have hne : l.drop i ≠ [] := by
    intro hc
    have := congrArg List.length hc
    simp at this
    omega
  cases hd : l.drop i with
  | nil => exact absurd hd hne
  | cons a t => simp [hd]

theorem beVal_be32enc (x : Nat) (h : x < 4294967296) : beVal (be32enc x) = x := by
  simp [beVal, be32enc, List.foldl]
  omega

theorem beVal_be16enc (x : Nat) (h : x < 65536) : beVal (be16enc x) = x := by
  simp [beVal, be16enc, List.foldl]
  omega

theorem crcShift_lt (c : Nat) : crcShift c < 65536 := by
  have : crcShift c ≤ 0xFFFF := Nat.and_le_right
  omega

theorem crcByteStep_lt (c b : Nat) : crcByteStep c b < 65536 := by
  show List.foldl _ _ (List.range 8) < 65536
  rw [show List.range 8 = [0, 1, 2, 3, 4, 5, 6, 7] from rfl]
  simp only [List.foldl]
  exact crcShift_lt _

theorem crc16_lt (data : List Nat) : crc16 data < 65536 := by
  suffices h : ∀ c, c < 65536 → data.foldl crcByteStep c < 65536 by
    exact h 0xFFFF (by norm_num)
  induction data with
  | nil => intro c hc; simpa
  | cons b t ih => intro c hc; exact ih _ (crcByteStep_lt c b)

theorem packFixed_of_length (n : Nat) (l : List Nat) (h : l.length = n) :
    packFixed n l = l := by
  simp [packFixed, h, List.take_of_length_le (Nat.le_of_eq h)]

/-! ## Field extraction on a serialized byte image -/

theorem fb_fields (pv mt hc tl : Nat) (u ts4 s6 pl2 crc2 pay : List Nat)
    (hu : u.length = 16) (hts : ts4.length = 4) (hs : s6.length = 6)
    (hp : pl2.length = 2) (hc2 : crc2.length = 2) :
    fbMt ([pv, mt] ++ u ++ [hc, tl] ++ ts4 ++ s6 ++ pl2 ++ crc2 ++ pay) = mt
    ∧ fbUuid ([pv, mt] ++ u ++ [hc, tl] ++ ts4 ++ s6 ++ pl2 ++ crc2 ++ pay) = u
    ∧ fbHop ([pv, mt] ++ u ++ [hc, tl] ++ ts4 ++ s6 ++ pl2 ++ crc2 ++ pay) = hc
    ∧ fbTtl ([pv, mt] ++ u ++ [hc, tl] ++ ts4 ++ s6 ++ pl2 ++ crc2 ++ pay) = tl
    ∧ fbTs ([pv, mt] ++ u ++ [hc, tl] ++ ts4 ++ s6 ++ pl2 ++ crc2 ++ pay) = beVal ts4
    ∧ fbSender ([pv, mt] ++ u ++ [hc, tl] ++ ts4 ++ s6 ++ pl2 ++ crc2 ++ pay) = s6
    ∧ fbPlen ([pv, mt] ++ u ++ [hc, tl] ++ ts4 ++ s6 ++ pl2 ++ crc2 ++ pay) = beVal pl2
    ∧ fbRcrc ([pv, mt] ++ u ++ [hc, tl] ++ ts4 ++ s6 ++ pl2 ++ crc2 ++ pay) = beVal crc2
    ∧ ([pv, mt] ++ u ++ [hc, tl] ++ ts4 ++ s6 ++ pl2 ++ crc2 ++ pay).take 32
        = [pv, mt] ++ u ++ [hc, tl] ++ ts4 ++ s6 ++ pl2
    ∧ ([pv, mt] ++ u ++ [hc, tl] ++ ts4 ++ s6 ++ pl2 ++ crc2 ++ pay).drop 34 = pay := by
  have h2 : [pv, mt] ++ u ++ [hc, tl] ++ ts4 ++ s6 ++ pl2 ++ crc2 ++ pay
      = [pv, mt] ++ (u ++ ([hc, tl] ++ ts4 ++ s6 ++ pl2 ++ crc2 ++ pay)) := by
    simp [List.append_assoc]
  have h18 : [pv, mt] ++ u ++ [hc, tl] ++ ts4 ++ s6 ++ pl2 ++ crc2 ++ pay
      = ([pv, mt] ++ u) ++ (hc :: tl :: (ts4 ++ s6 ++ pl2 ++ crc2 ++ pay)) := by
    simp [List.append_assoc]
  have h20 : [pv, mt] ++ u ++ [hc, tl] ++ ts4 ++ s6 ++ pl2 ++ crc2 ++ pay
      = ([pv, mt] ++ u ++ [hc, tl]) ++ (ts4 ++ (s6 ++ pl2 ++ crc2 ++ pay)) := by
    simp [List.append_assoc]
  have h24 : [pv, mt] ++ u ++ [hc, tl] ++ ts4 ++ s6 ++ pl2 ++ crc2 ++ pay
      = ([pv, mt] ++ u ++ [hc, tl] ++ ts4) ++ (s6 ++ (pl2 ++ crc2 ++ pay)) := by
    simp [List.append_assoc]
  have h30 : [pv, mt] ++ u ++ [hc, tl] ++ ts4 ++ s6 ++ pl2 ++ crc2 ++ pay
      = ([pv, mt] ++ u ++ [hc, tl] ++ ts4 ++ s6) ++ (pl2 ++ (crc2 ++ pay)) := by
    simp [List.append_assoc]
  have h32 : [pv, mt] ++ u ++ [hc, tl] ++ ts4 ++ s6 ++ pl2 ++ crc2 ++ pay
      = ([pv, mt] ++ u ++ [hc, tl] ++ ts4 ++ s6 ++ pl2) ++ (crc2 ++ pay) := by
    simp [List.append_assoc]
  have h34 : [pv, mt] ++ u ++ [hc, tl] ++ ts4 ++ s6 ++ pl2 ++ crc2 ++ pay
      = ([pv, mt] ++ u ++ [hc, tl] ++ ts4 ++ s6 ++ pl2 ++ crc2) ++ pay := by
    simp [List.append_assoc]
  refine ⟨?_, ?_, ?_, ?_, ?_, ?_, ?_, ?_, ?_, ?_⟩
  · rfl
  · rw [fbUuid, h2, dropApp _ _ 2 (by simp)]
    exact takeApp u _ 16 hu
  · rw [fbHop, byteAt, h18, dropApp _ _ 18 (by simp [hu])]
    rfl
  · have h19 : [pv, mt] ++ u ++ [hc, tl] ++ ts4 ++ s6 ++ pl2 ++ crc2 ++ pay
        = ([pv, mt] ++ u ++ [hc]) ++ (tl :: (ts4 ++ s6 ++ pl2 ++ crc2 ++ pay)) := by
      simp [List.append_assoc]
    rw [fbTtl, byteAt, h19, dropApp _ _ 19 (by simp [hu])]
    rfl
  · rw [fbTs, h20, dropApp _ _ 20 (by simp [hu])]
    rw [takeApp ts4 _ 4 hts]
  · rw [fbSender, h24, dropApp _ _ 24 (by simp [hu, hts])]
    rw [takeApp s6 _ 6 hs]
  · rw [fbPlen, h30, dropApp _ _ 30 (by simp [hu, hts, hs])]
    rw [takeApp pl2 _ 2 hp]
  · rw [fbRcrc, h32, dropApp _ _ 32 (by simp [hu, hts, hs, hp])]
    rw [takeApp crc2 _ 2 hc2]
  · rw [h32, takeApp _ _ 32 (by simp [hu, hts, hs, hp])]
  · rw [h34, dropApp _ _ 34 (by simp [hu, hts, hs, hp, hc2])]

theorem to_bytes_ok_of_valid (p : MeshPacket) (h : p.Valid) :
    p.to_bytes = Except.ok
      (p.header ++ be16enc (crc16 (p.header ++ p.payload)) ++ p.payload) := by
  obtain ⟨hpv, hu, hs, hts, hpl, hhc, httl, hmt⟩ := h
  rw [MeshPacket.to_bytes, if_pos]
  exact ⟨by omega, hmt, hhc, httl, hts, hpl⟩

theorem header_normal_form (p : MeshPacket) (hu : p.message_uuid.length = 16)
    (hs : p.sender_uuid.length = 6) :
    p.header = [p.protocol_version, p.message_type] ++ p.message_uuid
      ++ [p.hop_count, p.ttl] ++ be32enc p.timestamp ++ p.sender_uuid
      ++ be16enc p.payload.length := by
  have htake : p.sender_uuid.take 6 = p.sender_uuid :=
    List.take_of_length_le (by omega)
  rw [MeshPacket.header, packFixed_of_length 16 _ hu, htake,
    packFixed_of_length 6 _ hs]

/-! ## C3: codec round-trip -/

/-- Deserializing the serialized image of a valid packet recovers the
packet in every field except that a zero timestamp is replaced by the
deserialization-time clock (`__init__`'s `timestamp or int(time.time())`);
stated on the explicit byte image so that concrete witnesses can reuse it
without re-evaluating the CRC. -/
theorem from_bytes_image (now : Nat) (p : MeshPacket) (h : p.Valid) :
    MeshPacket.from_bytes now
      (p.header ++ be16enc (crc16 (p.header ++ p.payload)) ++ p.payload)
      = Except.ok
        { p with timestamp := if p.timestamp = 0 then now else p.timestamp } := by
  obtain ⟨hpv, hu, hs, hts, hpl, hhc, httl, hmt⟩ := h
  rw [header_normal_form p hu hs]
  generalize hcv : crc16 ([p.protocol_version, p.message_type] ++ p.message_uuid
      ++ [p.hop_count, p.ttl] ++ be32enc p.timestamp ++ p.sender_uuid
      ++ be16enc p.payload.length ++ p.payload) = cv
  have hcvlt : cv < 65536 := by rw [← hcv]; exact crc16_lt _
  obtain ⟨f1, f2, f3, f4, f5, f6, f7, f8, f9, f10⟩ :=
    fb_fields p.protocol_version p.message_type p.hop_count p.ttl
      p.message_uuid (be32enc p.timestamp) p.sender_uuid
      (be16enc p.payload.length) (be16enc cv) p.payload
      hu rfl hs rfl rfl
  rw [MeshPacket.from_bytes]
  rw [if_neg (by simp [List.length_append, hu, hs, be32enc, be16enc,
    MeshPacket.HEADER_SIZE, MeshPacket.CRC_SIZE]; omega)]
  have hplen : fbPlen ([p.protocol_version, p.message_type] ++ p.message_uuid
      ++ [p.hop_count, p.ttl] ++ be32enc p.timestamp ++ p.sender_uuid
      ++ be16enc p.payload.length ++ be16enc cv ++ p.payload)
      = p.payload.length := by
    rw [f7, beVal_be16enc _ (by omega)]
  have hpay : fbPayload ([p.protocol_version, p.message_type] ++ p.message_uuid
      ++ [p.hop_count, p.ttl] ++ be32enc p.timestamp ++ p.sender_uuid
      ++ be16enc p.payload.length ++ be16enc cv ++ p.payload)
      = p.payload := by
    rw [fbPayload, hplen, f10, List.take_of_length_le (Nat.le_refl _)]
  have hcrc : fbCalcCrc ([p.protocol_version, p.message_type] ++ p.message_uuid
      ++ [p.hop_count, p.ttl] ++ be32enc p.timestamp ++ p.sender_uuid
      ++ be16enc p.payload.length ++ be16enc cv ++ p.payload) = cv := by
    rw [fbCalcCrc, hpay, f9]
    exact hcv
  have hrcrc : fbRcrc ([p.protocol_version, p.message_type] ++ p.message_uuid
      ++ [p.hop_count, p.ttl] ++ be32enc p.timestamp ++ p.sender_uuid
      ++ be16enc p.payload.length ++ be16enc cv ++ p.payload) = cv := by
    rw [f8, beVal_be16enc _ hcvlt]
  have hts' : fbTs ([p.protocol_version, p.message_type] ++ p.message_uuid
      ++ [p.hop_count, p.ttl] ++ be32enc p.timestamp ++ p.sender_uuid
      ++ be16enc p.payload.length ++ be16enc cv ++ p.payload)
      = p.timestamp := by
    rw [f5, beVal_be32enc _ hts]
  rw [if_neg (by rw [hrcrc, hcrc]; simp)]
  rw [f1, f2, f3, f4, hts', f6, hpay]
  cases p with
  | mk pv mt u hc tl ts su pl =>
    simp_all [MeshPacket.PROTOCOL_VERSION]

/-- One-step reduction of `bind` on a successful serialization, kept as a
lemma so that concrete instances need no deep definitional unfolding. -/
theorem bind_ok_from_bytes (n : Nat) (l : List Nat) :
    (Except.ok l >>= MeshPacket.from_bytes n : Except CodecErr MeshPacket)
      = MeshPacket.from_bytes n l := rfl

/-- Core round-trip argument, shared between the round-trip claim and the
witnesses that need a concrete well-formed frame. -/
theorem codec_roundtrip_aux (now : Nat) (p : MeshPacket) (h : p.Valid)
    (hts0 : p.timestamp ≠ 0) :
    (p.to_bytes >>= MeshPacket.from_bytes now) = Except.ok p := by
  rw [to_bytes_ok_of_valid p h, bind_ok_from_bytes]
  have himg := from_bytes_image now p h
  rw [if_neg hts0] at himg
  exact himg

/-- Packet with timestamp 0, otherwise satisfying every validity
condition of the round-trip claim. -/
def zeroTsPacket : MeshPacket :=
  { protocol_version := 1, message_type := 2
    message_uuid := List.range 16
    hop_count := 0, ttl := 5, timestamp := 0
    sender_uuid := [10, 20, 30, 40, 50, 60]
    payload := [1, 2, 3] }

/-- C3 counterexample: the claim's validity range `0 ≤ timestamp < 2^32`
includes 0, but on a packet with timestamp 0 the round-trip does not
return the packet — `from_bytes` routes the parsed fields through
`__init__`, whose `timestamp or int(time.time())` replaces the falsy
parsed value 0 with the deserialization-time clock (here 1700000000). -/
theorem codec_roundtrip_fails_at_zero_timestamp :
    zeroTsPacket.Valid
    ∧ (zeroTsPacket.to_bytes >>= MeshPacket.from_bytes 1700000000)
        = Except.ok { zeroTsPacket with timestamp := 1700000000 }
    ∧ (zeroTsPacket.to_bytes >>= MeshPacket.from_bytes 1700000000)
        ≠ Except.ok zeroTsPacket := by
  have hv : zeroTsPacket.Valid := by decide
  have himg := from_bytes_image 1700000000 zeroTsPacket hv
  rw [if_pos (show zeroTsPacket.timestamp = 0 from rfl)] at himg
  refine ⟨hv, ?_, ?_⟩
  · rw [to_bytes_ok_of_valid zeroTsPacket hv, bind_ok_from_bytes]
    exact himg
  · rw [to_bytes_ok_of_valid zeroTsPacket hv, bind_ok_from_bytes, himg]
    intro hc
    have hinj := Except.ok.inj hc
    have hfield := congrArg MeshPacket.timestamp hinj
    simp [zeroTsPacket] at hfield

/-- C3 (amended): for every valid packet `p` (`sender_uuid` exactly
6 bytes, `timestamp < 2^32`, payload length at most 65535, `hop_count`,
`ttl` and `message_type` each one byte — plus the Python class invariants
that `message_uuid.bytes` has exactly 16 bytes and `protocol_version` is
the class constant 0x01) whose timestamp is nonzero, deserializing the
bytes produced by serializing `p`, at any clock reading, yields a packet
equal to `p` in every field.  A zero timestamp — falsy in Python — is the
one exception: `__init__` replaces it with the deserialization-time
clock. -/
theorem codec_roundtrip (now : Nat) (p : MeshPacket) (h : p.Valid)
    (hts0 : p.timestamp ≠ 0) :
    (p.to_bytes >>= MeshPacket.from_bytes now) = Except.ok p :=
  codec_roundtrip_aux now p h hts0

/-- Concrete packet used for codec witnesses. -/
def samplePacket : MeshPacket :=
  { protocol_version := 1, message_type := 2
    message_uuid := List.range 16
    hop_count := 0, ttl := 5, timestamp := 1700000000
    sender_uuid := [10, 20, 30, 40, 50, 60]
    payload := [100, 101, 102] }

/-- Witness for the amended C3 at a concrete valid packet and clock. -/
theorem codec_roundtrip_witness :
    (samplePacket.Valid ∧ samplePacket.timestamp ≠ 0)
    ∧ (samplePacket.to_bytes >>= MeshPacket.from_bytes 1700000400)
        = Except.ok samplePacket :=
  ⟨⟨by decide, by decide⟩,
    codec_roundtrip 1700000400 samplePacket (by decide) (by decide)⟩

/-! ## C7: serialization error conditions -/

/-- Packet with a five-byte `sender_uuid`; every other field is in range. -/
def shortSenderPacket : MeshPacket :=
  { protocol_version := 1, message_type := 2
    message_uuid := List.range 16
    hop_count := 0, ttl := 5, timestamp := 1700000000
    sender_uuid := [10, 20, 30, 40, 50]
    payload := [1, 2, 3] }

/-- C7 counterexample: contrary to the claim, a packet whose `sender_uuid`
is not exactly 6 bytes long serializes successfully — `to_bytes` slices
with `sender_uuid[:6]` and `struct.pack`'s `6s` format zero-pads short
inputs and truncates long ones, so no `BadField` error is possible for this
field. -/
theorem to_bytes_short_sender_succeeds :
    shortSenderPacket.sender_uuid.length = 5
    ∧ shortSenderPacket.to_bytes.isOk = true := by
  constructor
  · rfl
  · decide

/-- C7 (amended): for packets whose one-byte fields are in range (as the
Python class always constructs them), serialization succeeds exactly when
the payload fits the 16-bit length field and the timestamp fits 32 bits;
every failure is the `BadField` error; the length of `sender_uuid` is
irrelevant (wrong lengths are truncated or zero-padded, never rejected). -/
theorem to_bytes_success_characterization (p : MeshPacket)
    (hpv : p.protocol_version ≤ 255) (hmt : p.message_type ≤ 255)
    (hhc : p.hop_count ≤ 255) (httl : p.ttl ≤ 255) :
    (p.to_bytes.isOk = true ↔ p.payload.length ≤ 65535 ∧ p.timestamp < 4294967296)
    ∧ (p.to_bytes.isOk = false → p.to_bytes = Except.error CodecErr.BadField) := by
  rw [MeshPacket.to_bytes]
  by_cases h : p.protocol_version ≤ 255 ∧ p.message_type ≤ 255 ∧ p.hop_count ≤ 255
      ∧ p.ttl ≤ 255 ∧ p.timestamp < 4294967296 ∧ p.payload.length ≤ 65535
  · rw [if_pos h]
    refine ⟨⟨fun _ => ⟨h.2.2.2.2.2, h.2.2.2.2.1⟩, fun _ => rfl⟩, fun hc => ?_⟩
    simp [Except.isOk, Except.toBool] at hc
  · rw [if_neg h]
    refine ⟨⟨fun hc => ?_, fun hc => ?_⟩, fun _ => rfl⟩
    · simp [Except.isOk, Except.toBool] at hc
    · exact absurd ⟨hpv, hmt, hhc, httl, hc.2, hc.1⟩ h

/-- Witness for the amended C7 at a concrete packet. -/
theorem to_bytes_success_characterization_witness :
    samplePacket.protocol_version ≤ 255
    ∧ ((samplePacket.to_bytes.isOk = true
          ↔ samplePacket.payload.length ≤ 65535 ∧ samplePacket.timestamp < 4294967296)
        ∧ (samplePacket.to_bytes.isOk = false
          → samplePacket.to_bytes = Except.error CodecErr.BadField)) :=
  ⟨by decide,
    to_bytes_success_characterization samplePacket
      (by decide) (by decide) (by decide) (by decide)⟩

/-! ## C8: deserialization truncation behaviour -/

/-- Header bytes of the C8 counterexample: `payload_length` field is 1,
but the input stops right after the CRC. -/
def c8header : List Nat :=
  [1, 2] ++ List.replicate 16 0 ++ [0, 5] ++ be32enc 1700000000
    ++ [1, 2, 3, 4, 5, 6] ++ [0, 1]

/-- The 34-byte C8 counterexample input: the CRC stored in the frame is the
CRC of the header alone, which is exactly what `from_bytes` recomputes when
it silently truncates the missing payload. -/
def c8data : List Nat := c8header ++ be16enc (crc16 c8header)

set_option maxRecDepth 100000 in
/-- C8 counterexample: an input that is 34 bytes long yet carries fewer
than `payload_length` payload bytes is NOT rejected with `Truncated` —
`from_bytes` silently truncates the payload slice and can even succeed,
returning a packet whose payload is shorter than the advertised
`payload_length`. -/
theorem from_bytes_short_payload_succeeds :
    c8data.length = 34
    ∧ fbPlen c8data = 1
    ∧ MeshPacket.from_bytes 1700000500 c8data = Except.ok
        { protocol_version := 1, message_type := 2
          message_uuid := List.replicate 16 0
          hop_count := 0, ttl := 5, timestamp := 1700000000
          sender_uuid := [1, 2, 3, 4, 5, 6]
          payload := [] } := by
  refine ⟨rfl, rfl, ?_⟩
  decide

/-- C8 (amended): `from_bytes` fails with `Truncated` exactly when the
input has fewer than 34 bytes, at every clock reading.  An input of at
least 34 bytes with fewer than `payload_length` bytes after the header and
CRC is never reported as `Truncated`: the payload slice is silently cut
short, and the outcome is `CrcMismatch` or success depending on the stored
CRC. -/
theorem from_bytes_truncated_iff (now : Nat) (data : List Nat) :
    MeshPacket.from_bytes now data = Except.error CodecErr.Truncated
      ↔ data.length < 34 := by
  rw [MeshPacket.from_bytes]
  show (if data.length < 34 then _ else _) = _ ↔ _
  by_cases h : data.length < 34
  · simp [h]
  · rw [if_neg h]
    simp only [h, iff_false]
    by_cases hc : fbRcrc data ≠ fbCalcCrc data
    · simp [hc]
    · simp [hc]

/-! ## C10: trailing bytes are ignored by deserialization -/

/-- Every read `from_bytes` performs touches only the first
`34 + payload_length` bytes, so appending anything to a frame whose length
is exactly that leaves each parsed component unchanged. -/
theorem fb_components_append (data extra : List Nat)
    (hlen : data.length = 34 + fbPlen data) :
    fbMt (data ++ extra) = fbMt data
    ∧ fbUuid (data ++ extra) = fbUuid data
    ∧ fbHop (data ++ extra) = fbHop data
    ∧ fbTtl (data ++ extra) = fbTtl data
    ∧ fbTs (data ++ extra) = fbTs data
    ∧ fbSender (data ++ extra) = fbSender data
    ∧ fbPlen (data ++ extra) = fbPlen data
    ∧ fbRcrc (data ++ extra) = fbRcrc data
    ∧ fbPayload (data ++ extra) = fbPayload data
    ∧ fbCalcCrc (data ++ extra) = fbCalcCrc data := by
  have hplen : fbPlen (data ++ extra) = fbPlen data := by
    rw [fbPlen, takeDropApp data extra 30 2 (by omega), fbPlen]
  have hpay : fbPayload (data ++ extra) = fbPayload data := by
    rw [fbPayload, hplen, takeDropApp data extra 34 (fbPlen data) (by omega),
      fbPayload]
  refine ⟨?_, ?_, ?_, ?_, ?_, ?_, hplen, ?_, hpay, ?_⟩
  · exact byteAtApp data extra 1 (by omega)
  · rw [fbUuid, takeDropApp data extra 2 16 (by omega), fbUuid]
  · exact byteAtApp data extra 18 (by omega)
  · exact byteAtApp data extra 19 (by omega)
  · rw [fbTs, takeDropApp data extra 20 4 (by omega), fbTs]
  · rw [fbSender, takeDropApp data extra 24 6 (by omega), fbSender]
  · rw [fbRcrc, takeDropApp data extra 32 2 (by omega), fbRcrc]
  · rw [fbCalcCrc, takeAppLe data extra 32 (by omega), hpay, fbCalcCrc]

/-- C10: deserialization ignores trailing bytes — if the first
`34 + payload_length` bytes of an input form a well-formed frame (here:
`data` is exactly that prefix and parses successfully at clock reading
`now`), then deserializing the input with any trailing bytes appended, at
the same clock reading, succeeds and returns the same packet; the payload
is cut to exactly `payload_length` bytes and the extra bytes are never
reported as an error. -/
theorem from_bytes_ignores_trailing (now : Nat) (data extra : List Nat)
    (p : MeshPacket)
    (hlen : data.length = 34 + fbPlen data)
    (hok : MeshPacket.from_bytes now data = Except.ok p) :
    MeshPacket.from_bytes now (data ++ extra) = Except.ok p := by
  obtain ⟨c1, c2, c3, c4, c5, c6, c7, c8, c9, c10⟩ :=
    fb_components_append data extra hlen
  rw [MeshPacket.from_bytes] at hok
  rw [if_neg (by show ¬ data.length < 34; omega)] at hok
  by_cases hcrc : fbRcrc data ≠ fbCalcCrc data
  · rw [if_pos hcrc] at hok
    exact absurd hok (by simp)
  · rw [if_neg hcrc] at hok
    rw [MeshPacket.from_bytes]
    rw [if_neg (by
      show ¬ (data ++ extra).length < MeshPacket.HEADER_SIZE + MeshPacket.CRC_SIZE
      rw [List.length_append]
      show ¬ _ < 34
      omega)]
    rw [if_neg (by rw [c8, c10]; exact hcrc)]
    rw [c1, c2, c3, c4, c5, c6, c9]
    exact hok

/-- A concrete well-formed frame (the byte image of `samplePacket`),
used by the C10 witness. -/
def c10data : List Nat :=
  samplePacket.header
    ++ be16enc (crc16 (samplePacket.header ++ samplePacket.payload))
    ++ samplePacket.payload

set_option maxRecDepth 8000 in
/-- Witness for C10: a concrete exact-length frame with three junk bytes
appended still parses to the same packet at a concrete clock reading. -/
theorem from_bytes_ignores_trailing_witness :
    c10data.length = 34 + fbPlen c10data
    ∧ MeshPacket.from_bytes 1700000999 (c10data ++ [7, 8, 9])
        = Except.ok samplePacket := by
  have hv : samplePacket.Valid := by decide
  have himg := from_bytes_image 1700000999 samplePacket hv
  rw [if_neg (show ¬ samplePacket.timestamp = 0 by decide)] at himg
  have hok : MeshPacket.from_bytes 1700000999 c10data = Except.ok samplePacket :=
    himg
  exact ⟨by decide,
    from_bytes_ignores_trailing 1700000999 c10data [7, 8, 9] samplePacket
      (by decide) hok⟩

/-! ## SHA-256 (hashlib.sha256), for the duplicate-detection fingerprint -/

def rotr32 (n x : Nat) : Nat := ((x >>> n) ||| (x <<< (32 - n))) &&& 0xFFFFFFFF

def shaCh (x y z : Nat) : Nat := (x &&& y) ^^^ ((x ^^^ 0xFFFFFFFF) &&& z)

def shaMaj (x y z : Nat) : Nat := (x &&& y) ^^^ (x &&& z) ^^^ (y &&& z)

def bigSigma0 (x : Nat) : Nat := rotr32 2 x ^^^ rotr32 13 x ^^^ rotr32 22 x

def bigSigma1 (x : Nat) : Nat := rotr32 6 x ^^^ rotr32 11 x ^^^ rotr32 25 x

def smallSigma0 (x : Nat) : Nat := rotr32 7 x ^^^ rotr32 18 x ^^^ (x >>> 3)

def smallSigma1 (x : Nat) : Nat := rotr32 17 x ^^^ rotr32 19 x ^^^ (x >>> 10)

/-- The 64 SHA-256 round constants (FIPS 180-4), written in decimal. -/
def shaK : List Nat :=
  [1116352408, 1899447441, 3049323471, 3921009573, 961987163,
   1508970993, 2453635748, 2870763221, 3624381080, 310598401,
   607225278, 1426881987, 1925078388, 2162078206, 2614888103,
   3248222580, 3835390401, 4022224774, 264347078, 604807628,
   770255983, 1249150122, 1555081692, 1996064986, 2554220882,
   2821834349, 2952996808, 3210313671, 3336571891, 3584528711,
   113926993, 338241895, 666307205, 773529912, 1294757372,
   1396182291, 1695183700, 1986661051, 2177026350, 2456956037,
   2730485921, 2820302411, 3259730800, 3345764771, 3516065817,
   3600352804, 4094571909, 275423344, 430227734, 506948616,
   659060556, 883997877, 958139571, 1322822218, 1537002063,
   1747873779, 1955562222, 2024104815, 2227730452, 2361852424,
   2428436474, 2756734187, 3204031479, 3329325298]

/-- The eight initial SHA-256 hash values (FIPS 180-4), in decimal. -/
def shaH0 : List Nat :=
  [1779033703, 3144134277, 1013904242, 2773480762, 1359893119,
   2600822924, 528734635, 1541459225]

def be64enc (x : Nat) : List Nat :=
  [x / 72057594037927936 % 256, x / 281474976710656 % 256,
   x / 1099511627776 % 256, x / 4294967296 % 256,
   x / 16777216 % 256, x / 65536 % 256, x / 256 % 256, x % 256]

def sha256pad (msg : List Nat) : List Nat :=
  msg ++ [0x80] ++ List.replicate ((64 - (msg.length + 9) % 64) % 64) 0
    ++ be64enc (8 * msg.length)

def wordsOfBlock (block : List Nat) : List Nat :=
  (List.range 16).map (fun i => beVal ((block.drop (4 * i)).take 4))

def shaExtend (w : List Nat) : List Nat :=
  List.foldl
    (fun acc t =>
      acc ++ [(smallSigma1 (acc.getD (t - 2) 0) + acc.getD (t - 7) 0
        + smallSigma0 (acc.getD (t - 15) 0) + acc.getD (t - 16) 0) % 4294967296])
    w (List.range' 16 48)

def shaRound (w : List Nat) (s : List Nat) (t : Nat) : List Nat :=
  match s with
  | [a, b, c, d, e, f, g, h] =>
    let t1 := (h + bigSigma1 e + shaCh e f g + shaK.getD t 0 + w.getD t 0) % 4294967296
    let t2 := (bigSigma0 a + shaMaj a b c) % 4294967296
    [(t1 + t2) % 4294967296, a, b, c, (d + t1) % 4294967296, e, f, g]
  | s => s

def shaCompress (hs : List Nat) (block : List Nat) : List Nat :=
  let w := shaExtend (wordsOfBlock block)
  let final := List.foldl (shaRound w) hs (List.range 64)
  List.zipWith (fun x y => (x + y) % 4294967296) hs final

def sha256bytes (msg : List Nat) : List Nat :=
  let padded := sha256pad msg
  let hs := List.foldl
    (fun hs i => shaCompress hs ((padded.drop (64 * i)).take 64))
    shaH0 (List.range (padded.length / 64))
  hs.foldr (fun w acc => be32enc w ++ acc) []

def hexDigit (d : Nat) : Nat := if d < 10 then 48 + d else 87 + d

def hexAscii (bytes : List Nat) : List Nat :=
  bytes.foldr (fun b acc => hexDigit (b / 16) :: hexDigit (b % 16) :: acc) []

def sha256hexAscii (msg : List Nat) : List Nat := hexAscii (sha256bytes msg)




/-- `MeshPacket.calculate_hash`: the duplicate-detection fingerprint.  The
source computes `self.message_uuid.hex + self.sender_uuid.hex()` — on
CPython `uuid.UUID.hex` is a property, so this concatenates the 32-char
lowercase hex of the UUID with the 12-char lowercase hex of the sender —
then takes the first 16 characters of the SHA-256 hexdigest of the UTF-8
encoding of that string.  Characters are modelled by their ASCII codes. -/
def MeshPacket.calculate_hash (p : MeshPacket) : List Nat :=
  (sha256hexAscii (hexAscii p.message_uuid ++ hexAscii p.sender_uuid)).take 16

/-- Modelled from the spec's words (§4.3): "first 16 hex chars of
SHA-256( hex(message_uuid) ∥ hex(sender_uuid) )", to be compared with the
fingerprint computed by the source. -/
def specFingerprint (p : MeshPacket) : List Nat :=
  (sha256hexAscii (hexAscii p.message_uuid ++ hexAscii p.sender_uuid)).take 16

/-- C9: the duplicate-detection fingerprint equals the first 16 hex
characters of SHA-256 over hex(message_uuid) ∥ hex(sender_uuid), and for
any two packets sharing (message_uuid, sender_uuid) the fingerprints are
equal regardless of hop_count, ttl, message_type, timestamp or payload. -/
theorem fingerprint_stable (p q : MeshPacket)
    (hu : p.message_uuid = q.message_uuid)
    (hs : p.sender_uuid = q.sender_uuid) :
    p.calculate_hash = specFingerprint p
    ∧ p.calculate_hash = q.calculate_hash := by
  constructor
  · rfl
  · rw [MeshPacket.calculate_hash, MeshPacket.calculate_hash, hu, hs]

/-- A relayed copy of `samplePacket`: same identifiers, different
message_type, hop_count, ttl and payload. -/
def sampleRelayedPacket : MeshPacket :=
  { protocol_version := 1, message_type := 3
    message_uuid := List.range 16
    hop_count := 3, ttl := 2, timestamp := 1700000111
    sender_uuid := [10, 20, 30, 40, 50, 60]
    payload := [9, 9, 9, 9] }

/-- Witness for C9 at two concrete packets differing in every
non-identifier field. -/
theorem fingerprint_stable_witness :
    samplePacket.message_uuid = sampleRelayedPacket.message_uuid
    ∧ (samplePacket.calculate_hash = specFingerprint samplePacket
        ∧ samplePacket.calculate_hash = sampleRelayedPacket.calculate_hash) :=
  ⟨rfl, fingerprint_stable samplePacket sampleRelayedPacket rfl rfl⟩

set_option maxRecDepth 100000 in
/-- Sanity check of the SHA-256 embedding against the standard test vector
for the empty message. -/
theorem sha256_empty_vector :
    sha256bytes [] =
      [227, 176, 196, 66, 152, 252, 28, 20, 154, 251, 244, 200, 153, 111,
       185, 36, 39, 174, 65, 228, 100, 155, 147, 76, 164, 149, 153, 27, 120,
       82, 184, 85] := by
  decide

set_option maxRecDepth 100000 in
/-- Sanity check of the SHA-256 embedding against the standard test vector
for the three-byte message "abc". -/
theorem sha256_abc_vector :
    sha256bytes [97, 98, 99] =
      [186, 120, 22, 191, 143, 1, 207, 234, 65, 65, 64, 222, 93, 174, 34,
       35, 176, 3, 97, 163, 150, 23, 122, 156, 180, 16, 255, 97, 242, 0, 21,
       173] := by
  decide

set_option maxRecDepth 100000 in
/-- Sanity check of the fingerprint embedding against
`hashlib.sha256((uuid.hex + sender.hex()).encode()).hexdigest()[:16]`
computed independently for `samplePacket`: the ASCII codes spell
"51822124303c2c35". -/
theorem fingerprint_sample_value :
    samplePacket.calculate_hash =
      [53, 49, 56, 50, 50, 49, 50, 52, 51, 48, 51, 99, 50, 99, 51, 53] := by
  decide

/-! ## Forwarding engine model (mesh_node.py + the test harness topology) -/

/-- Recipient field of the decrypted JSON payload: either the literal
string "broadcast" or the hex of a device uuid (device uuids are modelled
as numbers and are never the string "broadcast"). -/
inductive Recipient where
  | broadcast
  | device (d : Nat)
deriving DecidableEq, Repr

/-- A packet as seen by the forwarding engine, together with the recipient
of its decrypted payload.  Device uuids and message uuids are abstract
numbers. -/
structure SimPacket where
  message_type : Nat
  message_uuid : Nat
  hop_count : Nat
  ttl : Nat
  timestamp : Nat
  sender_uuid : Nat
  recipient : Recipient
deriving DecidableEq, Repr

/-- Duplicate-cache fingerprint.  `calculate_hash` depends on exactly
`(message_uuid, sender_uuid)` (claim C9), so the fingerprint is modelled by
that pair (identifying SHA collisions between distinct pairs away). -/
abbrev Fp := Nat × Nat

/-- Fingerprint of a packet, per `calculate_hash`. -/
def fpOf (p : SimPacket) : Fp := (p.message_uuid, p.sender_uuid)

/-- Global state of the simulated mesh: per-node duplicate caches in
insertion order, the log of `on_message_received` invocations, the log of
emitted ACK packets, a counter yielding fresh ACK uuids (`uuid.uuid4()`),
and a ghost flag recording whether any cache ever evicted (instrumentation,
not present in the source). -/
structure SimState where
  caches : Nat → List Fp
  deliveredLog : List (Nat × SimPacket)
  ackLog : List (Nat × SimPacket)
  nextAckUuid : Nat
  evicted : Bool

/-- `cache_max_size = 500`. -/
def cacheMaxSize : Nat := 500

/-- Fresh state: all caches empty, nothing delivered. -/
def initState : SimState :=
  { caches := fun _ => [], deliveredLog := [], ackLog := []
    nextAckUuid := 1000000, evicted := false }

/-- `MeshNode._mark_as_seen`: insert the fingerprint, then pop the
first-inserted entry if the cache exceeds `cache_max_size` (LRU eviction
via `OrderedDict.popitem(last=False)`).  The ghost `evicted` flag records
that an eviction fired. -/
def markSeen (st : SimState) (node : Nat) (fp : Fp) : SimState :=
  let c := st.caches node ++ [fp]
  if c.length > cacheMaxSize then
    { st with caches := fun j => if j = node then c.drop 1 else st.caches j
              evicted := true }
  else
    { st with caches := fun j => if j = node then c else st.caches j }

/-- `MeshNode._is_timestamp_valid`: `abs(now - ts) <= 300`. -/
def isTimestampValid (now ts : Nat) : Bool :=
  (if now ≥ ts then now - ts else ts - now) ≤ 300

/-- `MeshNode._should_relay`: relay iff `ttl > 0` and (kind is SOS, or the
recipient is broadcast, or the packet is a DIRECT not addressed to us). -/
def shouldRelay (p : SimPacket) (is_broadcast is_for_me : Bool) : Bool :=
  if p.ttl ≤ 0 then false
  else if p.message_type == MessageType.SOS then true
  else if is_broadcast then true
  else if !is_for_me && p.message_type == MessageType.DIRECT then true
  else false

/-- `MeshNode._relay_packet`: kind becomes RELAY, same uuid, `hop_count+1`,
`ttl-1`, same timestamp and sender; the payload is re-encrypted from the
same decrypted JSON, so the recipient is unchanged. -/
def relayPacketOf (p : SimPacket) : SimPacket :=
  { message_type := MessageType.RELAY, message_uuid := p.message_uuid
    hop_count := p.hop_count + 1, ttl := p.ttl - 1
    timestamp := p.timestamp, sender_uuid := p.sender_uuid
    recipient := p.recipient }

/-- `MeshPacket.create_ack` as invoked by `MeshNode._send_ack`: fresh uuid,
kind ACK, `hop_count=0`, `ttl=5`, current timestamp, our uuid as sender,
addressed to the original packet's sender. -/
def ackPacketOf (me u now : Nat) (orig : SimPacket) : SimPacket :=
  { message_type := MessageType.ACK, message_uuid := u
    hop_count := 0, ttl := 5, timestamp := now, sender_uuid := me
    recipient := Recipient.device orig.sender_uuid }

/-- `MeshNode._process_received_packet` at `node`, with
`_broadcast_packet` substituted by the harness's topology fan-out
(`simulated_broadcast` in `test_mesh.py` recursively hands the bytes to
each neighbour).  The byte codec and payload crypto are elided: the codec
round-trips (C3) and all nodes share the network key, so packets travel as
decoded values.  `fuel` bounds the recursion depth of the synchronous
fan-out; every scenario below terminates well within its fuel. -/
def processAt : Nat → (Nat → List Nat) → Nat → SimState → Nat → SimPacket → SimState
  | 0, _, _, st, _, _ => st
  | fuel + 1, adj, now, st, node, pkt =>
    if fpOf pkt ∈ st.caches node then st
    else if !isTimestampValid now pkt.timestamp then st
    else
      let st1 := markSeen st node (fpOf pkt)
      let is_for_me := pkt.recipient == Recipient.device node
      let is_broadcast := pkt.recipient == Recipient.broadcast
      let st2 :=
        if is_for_me || is_broadcast then
          let stD := { st1 with deliveredLog := st1.deliveredLog ++ [(node, pkt)] }
          if pkt.message_type == MessageType.DIRECT && is_for_me then
            let ack := ackPacketOf node stD.nextAckUuid now pkt
            let stA := { stD with nextAckUuid := stD.nextAckUuid + 1
                                  ackLog := stD.ackLog ++ [(node, ack)] }
            List.foldl (fun s nbr => processAt fuel adj now s nbr ack) stA (adj node)
          else stD
        else st1
      if shouldRelay pkt is_broadcast is_for_me then
        List.foldl (fun s nbr => processAt fuel adj now s nbr (relayPacketOf pkt))
          st2 (adj node)
      else st2

/-- Origination: `send_message` with a nonempty peer set (or the harness's
`send_sos_from`) broadcasts the packet to every neighbour of the
originator; the originator does not process its own packet and nothing
marks it in the originator's cache. -/
def runScenario (fuel : Nat) (adj : Nat → List Nat) (now origin : Nat)
    (pkt : SimPacket) : SimState :=
  List.foldl (fun s nbr => processAt fuel adj now s nbr pkt) initState (adj origin)

/-- Number of times `node`'s `on_message_received` callback fired for a
packet with fingerprint `fp`. -/
def countDelivered (st : SimState) (node : Nat) (fp : Fp) : Nat :=
  (st.deliveredLog.filter (fun e => e.1 == node && fpOf e.2 == fp)).length

/-- Chain topology A(0)–B(1)–C(2)–D(3)–E(4). -/
def chainAdj : Nat → List Nat
  | 0 => [1]
  | 1 => [0, 2]
  | 2 => [1, 3]
  | 3 => [2, 4]
  | 4 => [3]
  | _ => []

/-- DIRECT message originated by A addressed to E. -/
def directPacketAE : SimPacket :=
  { message_type := MessageType.DIRECT, message_uuid := 42
    hop_count := 0, ttl := 5, timestamp := 1000, sender_uuid := 0
    recipient := Recipient.device 4 }

/-- The chain scenario run. -/
def chainRun : SimState := runScenario 20 chainAdj 1000 0 directPacketAE

/-- Triangle topology: A(0), B(1), C(2), fully connected. -/
def triangleAdj : Nat → List Nat
  | 0 => [1, 2]
  | 1 => [0, 2]
  | 2 => [0, 1]
  | _ => []

/-- SOS broadcast originated by A. -/
def sosPacketA : SimPacket :=
  { message_type := MessageType.SOS, message_uuid := 7
    hop_count := 0, ttl := 5, timestamp := 1000, sender_uuid := 0
    recipient := Recipient.broadcast }

/-- The triangle scenario run. -/
def triangleRun : SimState := runScenario 20 triangleAdj 1000 0 sosPacketA

/-- C1 (divergence evidence): in the chain A–B–C–D–E, a DIRECT message
originated by A for E dies at the first relay hop.  B relays it (DIRECT,
not for B), but the relay rewrites the kind to RELAY, and
`_should_relay`'s not-for-me branch requires kind DIRECT — so C drops the
RELAY-kind copy, E never delivers, no ACK is ever emitted, and A never
observes an ACK.  The final conjunct isolates the broken branch: a
RELAY-kind packet with ttl > 0, neither broadcast nor addressed to the
receiver, is NOT relayed. -/
theorem direct_chain_no_delivery_no_ack :
    chainRun.deliveredLog = []
    ∧ chainRun.ackLog = []
    ∧ shouldRelay (relayPacketOf directPacketAE) false false = false
    ∧ (relayPacketOf directPacketAE).ttl = 4 := by
  refine ⟨?_, ?_, ?_, ?_⟩ <;> decide

/-- C4 counterexample: the claim says A never delivers its own SOS, but
nothing marks an originated packet in the originator's cache and
`_process_received_packet` has no own-sender check, so when B's relay of
A's SOS arrives back at A, A delivers it to its application callback
(exactly once; the second copy is then duplicate-suppressed). -/
theorem triangle_origin_delivers_own_sos :
    sosPacketA.sender_uuid = 0
    ∧ countDelivered triangleRun 0 (fpOf sosPacketA) = 1 := by
  refine ⟨rfl, ?_⟩
  decide

/-- C4 (amended): in the fully connected triangle with an SOS from A,
B and C each deliver exactly once, and A also delivers its own SOS exactly
once when a relay arrives back at it; there is no infinite relay loop
(every node processes the fingerprint at most once). -/
theorem triangle_delivery_counts :
    countDelivered triangleRun 1 (fpOf sosPacketA) = 1
    ∧ countDelivered triangleRun 2 (fpOf sosPacketA) = 1
    ∧ countDelivered triangleRun 0 (fpOf sosPacketA) = 1 := by
  refine ⟨?_, ?_, ?_⟩ <;> decide

/-! ## C5: TTL termination -/

/-- Reachability by relay steps: `RelayReach p q` holds when `q` arises
from `p` by a sequence of `_relay_packet` transformations, each permitted
by `_should_relay` under some recipient classification. -/
inductive RelayReach (p : SimPacket) : SimPacket → Prop where
  | refl : RelayReach p p
  | step (q : SimPacket) (b m : Bool) :
      RelayReach p q → shouldRelay q b m = true → RelayReach p (relayPacketOf q)

/-- Relaying requires a positive ttl. -/
theorem shouldRelay_ttl_pos (q : SimPacket) (b m : Bool)
    (h : shouldRelay q b m = true) : 1 ≤ q.ttl := by
  by_contra hc
  have hz : q.ttl = 0 := by omega
  simp [shouldRelay, hz] at h

/-- Relay steps preserve `hop_count + ttl`. -/
theorem relayReach_hop_ttl (p q : SimPacket) (hr : RelayReach p q) :
    q.hop_count + q.ttl ≤ p.hop_count + p.ttl := by
  induction hr with
  | refl => exact Nat.le_refl _
  | step q' b m hreach hrel ih =>
    have := shouldRelay_ttl_pos q' b m hrel
    simp only [relayPacketOf]
    omega

/-- C5: a packet originated with `hop_count = 0` and `ttl = 5` never
reaches `hop_count > 5` along any sequence of relay steps — relaying
requires `ttl > 0` and each relay emits `hop_count + 1`, `ttl - 1`, so
`hop_count + ttl ≤ 5` is preserved. -/
theorem ttl_termination (p q : SimPacket) (h0 : p.hop_count = 0)
    (h5 : p.ttl = 5) (hr : RelayReach p q) : q.hop_count ≤ 5 := by
  have := relayReach_hop_ttl p q hr
  omega

/-- Witness for C5: one relay step from the concrete DIRECT packet. -/
theorem ttl_termination_witness :
    directPacketAE.hop_count = 0
    ∧ (relayPacketOf directPacketAE).hop_count ≤ 5 :=
  ⟨rfl,
    ttl_termination directPacketAE (relayPacketOf directPacketAE) rfl rfl
      (RelayReach.step directPacketAE false false RelayReach.refl (by decide))⟩

/-! ## C6: stale timestamps are dropped before any effect -/

/-- C6: a packet whose timestamp differs from the current time by more
than 300 seconds is dropped before any state change: nothing is delivered,
no ACK is emitted, nothing is relayed, and the duplicate cache is not even
updated (the timestamp check precedes mark-as-seen, delivery, ACK and
relay in `_process_received_packet`). -/
theorem stale_packet_dropped (fuel : Nat) (adj : Nat → List Nat) (now : Nat)
    (st : SimState) (node : Nat) (pkt : SimPacket)
    (hstale : isTimestampValid now pkt.timestamp = false) :
    processAt fuel adj now st node pkt = st := by
  cases fuel with
  | zero => rfl
  | succ f =>
    simp only [processAt, hstale]
    split
    · rfl
    · simp

/-- Stale packet used in the C6 witness: 900 seconds old at `now = 1000`. -/
def stalePacket : SimPacket :=
  { message_type := MessageType.DIRECT, message_uuid := 42
    hop_count := 0, ttl := 5, timestamp := 100, sender_uuid := 0
    recipient := Recipient.device 4 }

/-- Witness for C6 at a concrete stale packet. -/
theorem stale_packet_dropped_witness :
    isTimestampValid 1000 stalePacket.timestamp = false
    ∧ processAt 5 chainAdj 1000 initState 0 stalePacket = initState :=
  ⟨by decide, stale_packet_dropped 5 chainAdj 1000 initState 0 stalePacket (by decide)⟩

/-! ## C2: at-most-once delivery -/

/-- Each node's callback fires at most once per fingerprint. -/
def AtMostOnce (st : SimState) : Prop :=
  ∀ node fp, countDelivered st node fp ≤ 1

/-- A delivered fingerprint is in the delivering node's cache (the
mark-before-deliver ordering of `_process_received_packet`). -/
def DelivCached (st : SimState) : Prop :=
  ∀ node fp, 0 < countDelivered st node fp → fp ∈ st.caches node

/-- Run invariant: either some cache evicted (outside the claim's regime),
or delivery is at-most-once and marked before any transmission. -/
def SimInv (st : SimState) : Prop :=
  st.evicted = true ∨ (AtMostOnce st ∧ DelivCached st)

theorem foldl_preserves {σ α : Type} (P : σ → Prop) (f : σ → α → σ)
    (hf : ∀ s a, P s → P (f s a)) :
    ∀ (l : List α) (s : σ), P s → P (List.foldl f s l) := by
  intro l
  induction l with
  | nil => intro s hs; exact hs
  | cons a t ih => intro s hs; exact ih _ (hf s a hs)

theorem markSeen_deliveredLog (st : SimState) (n : Nat) (fp : Fp) :
    (markSeen st n fp).deliveredLog = st.deliveredLog := by
  simp only [markSeen]
  split <;> rfl

theorem markSeen_evicted_true (st : SimState) (n : Nat) (fp : Fp)
    (h : st.evicted = true) : (markSeen st n fp).evicted = true := by
  simp only [markSeen]
  split <;> simp [h]

theorem countDelivered_markSeen (st : SimState) (n : Nat) (fp : Fp)
    (n' : Nat) (fp' : Fp) :
    countDelivered (markSeen st n fp) n' fp' = countDelivered st n' fp' := by
  rw [countDelivered, markSeen_deliveredLog, countDelivered]

theorem markSeen_cases (st : SimState) (n : Nat) (fp : Fp) :
    (markSeen st n fp).evicted = true
    ∨ ((markSeen st n fp).evicted = st.evicted
        ∧ (markSeen st n fp).caches n = st.caches n ++ [fp]
        ∧ ∀ j, j ≠ n → (markSeen st n fp).caches j = st.caches j) := by
  simp only [markSeen]
  split
  · exact Or.inl rfl
  · exact Or.inr ⟨rfl, by simp, fun j hj => by simp [hj]⟩

theorem countDelivered_append_self (st : SimState) (node : Nat) (pkt : SimPacket) :
    countDelivered { st with deliveredLog := st.deliveredLog ++ [(node, pkt)] }
      node (fpOf pkt) = countDelivered st node (fpOf pkt) + 1 := by
  simp [countDelivered, List.filter_append]

theorem countDelivered_append_other (st : SimState) (node : Nat) (pkt : SimPacket)
    (n' : Nat) (fp' : Fp) (h : ¬(n' = node ∧ fp' = fpOf pkt)) :
    countDelivered { st with deliveredLog := st.deliveredLog ++ [(node, pkt)] }
      n' fp' = countDelivered st n' fp' := by
  simp only [countDelivered, List.filter_append, List.length_append]
  have hf : (List.filter (fun e => e.1 == n' && fpOf e.2 == fp') [(node, pkt)]) = [] := by
    by_cases h1 : node = n'
    · by_cases h2 : fpOf pkt = fp'
      · exact absurd ⟨h1.symm, h2.symm⟩ h
      · have hb : (fpOf pkt == fp') = false := by simp [h2]
        simp [List.filter, h1, hb]
    · have hb : (node == n') = false := by simp [h1]
      simp [List.filter, hb]
  rw [hf]
  rfl

/-- Folding a packet broadcast over any neighbour list keeps the ghost
eviction flag set. -/
theorem foldl_evicted_mono (fuel : Nat) (adj : Nat → List Nat) (now : Nat)
    (pk : SimPacket)
    (ihm : ∀ (s : SimState) (n : Nat),
      s.evicted = true → (processAt fuel adj now s n pk).evicted = true)
    (l : List Nat) (s : SimState) (hs : s.evicted = true) :
    (List.foldl (fun s nbr => processAt fuel adj now s nbr pk) s l).evicted
      = true :=
  foldl_preserves (fun s => s.evicted = true) _ (fun s a hs => ihm s a hs) l s hs

/-- Once the ghost eviction flag is set, every later state keeps it. -/
theorem processAt_evicted_mono :
    ∀ (fuel : Nat) (adj : Nat → List Nat) (now : Nat) (st : SimState)
      (node : Nat) (pkt : SimPacket),
      st.evicted = true → (processAt fuel adj now st node pkt).evicted = true := by
  intro fuel
  induction fuel with
  | zero => intro adj now st node pkt h; exact h
  | succ f ih =>
    intro adj now st node pkt h
    by_cases hdup : fpOf pkt ∈ st.caches node
    · simp only [processAt, if_pos hdup]; exact h
    · by_cases hts : (!isTimestampValid now pkt.timestamp) = true
      · simp only [processAt, if_neg hdup, if_pos hts]; exact h
      · simp only [processAt, if_neg hdup, if_neg hts]
        have h1 : (markSeen st node (fpOf pkt)).evicted = true :=
          markSeen_evicted_true st node (fpOf pkt) h
        have hcore : ∀ (s2 : SimState), s2.evicted = true →
            (if shouldRelay pkt (pkt.recipient == Recipient.broadcast)
                (pkt.recipient == Recipient.device node) = true then
              List.foldl
                (fun s nbr => processAt f adj now s nbr (relayPacketOf pkt))
                s2 (adj node)
            else s2).evicted = true := by
          intro s2 hs2
          split
          · exact foldl_evicted_mono f adj now _
              (fun s n hs => ih adj now s n _ hs) (adj node) s2 hs2
          · exact hs2
        apply hcore
        split
        · split
          · exact foldl_evicted_mono f adj now _
              (fun s n hs => ih adj now s n _ hs) (adj node) _ h1
          · exact h1
        · exact h1

/-- `processAt` preserves the run invariant: a cached fingerprint is
dropped, and a delivery only happens when the fingerprint was absent, in
which case `markSeen` has inserted it before the delivery, the ACK
broadcast and the relay broadcast. -/
theorem processAt_preserves_SimInv :
    ∀ (fuel : Nat) (adj : Nat → List Nat) (now : Nat) (st : SimState)
      (node : Nat) (pkt : SimPacket),
      SimInv st → SimInv (processAt fuel adj now st node pkt) := by
  intro fuel
  induction fuel with
  | zero => intro _ _ st _ _ h; exact h
  | succ f ih =>
    intro adj now st node pkt hinv
    by_cases hdup : fpOf pkt ∈ st.caches node
    · simp only [processAt, if_pos hdup]; exact hinv
    by_cases hts : (!isTimestampValid now pkt.timestamp) = true
    · simp only [processAt, if_neg hdup, if_pos hts]; exact hinv
    simp only [processAt, if_neg hdup, if_neg hts]
    have hfold : ∀ (pk : SimPacket) (l : List Nat) (s : SimState), SimInv s →
        SimInv (List.foldl (fun s nbr => processAt f adj now s nbr pk) s l) :=
      fun pk l s hs =>
        foldl_preserves SimInv _ (fun s a hs => ih adj now s a pk hs) l s hs
    have hemono : ∀ (pk : SimPacket) (l : List Nat) (s : SimState),
        s.evicted = true →
        (List.foldl (fun s nbr => processAt f adj now s nbr pk) s l).evicted
          = true :=
      fun pk l s hs => foldl_evicted_mono f adj now pk
        (fun s n hs => processAt_evicted_mono f adj now s n pk hs) l s hs
    set st1 := markSeen st node (fpOf pkt) with hst1
    rcases markSeen_cases st node (fpOf pkt) with hev | ⟨heq, hcn, hco⟩
    · rw [← hst1] at hev
      split
      · apply Or.inl
        apply hemono
        split
        · split
          · exact hemono _ _ _ hev
          · exact hev
        · exact hev
      · split
        · split
          · exact Or.inl (hemono _ _ _ hev)
          · exact Or.inl hev
        · exact Or.inl hev
    · rw [← hst1] at heq hcn hco
      cases hinv with
      | inl hevst =>
        have hev1 : st1.evicted = true := heq.trans hevst
        split
        · apply Or.inl
          apply hemono
          split
          · split
            · exact hemono _ _ _ hev1
            · exact hev1
          · exact hev1
        · split
          · split
            · exact Or.inl (hemono _ _ _ hev1)
            · exact Or.inl hev1
          · exact Or.inl hev1
      | inr hconj =>
        obtain ⟨amo, dc⟩ := hconj
        have amo1 : AtMostOnce st1 := by
          intro n' fp'
          rw [hst1, countDelivered_markSeen]
          exact amo n' fp'
        have dc1 : DelivCached st1 := by
          intro n' fp' hpos
          rw [hst1, countDelivered_markSeen] at hpos
          have hm := dc n' fp' hpos
          by_cases hn : n' = node
          · subst hn
            rw [hcn]
            exact List.mem_append_left _ hm
          · rw [hco n' hn]
            exact hm
        have hcount0 : countDelivered st1 node (fpOf pkt) = 0 := by
          by_contra hc
          have hpos : 0 < countDelivered st node (fpOf pkt) := by
            have heqc := countDelivered_markSeen st node (fpOf pkt) node (fpOf pkt)
            rw [hst1] at hc
            omega
          exact hdup (dc node (fpOf pkt) hpos)
        set stD := { st1 with deliveredLog := st1.deliveredLog ++ [(node, pkt)] }
          with hstD
        have amoD : AtMostOnce stD := by
          intro n' fp'
          by_cases hsame : n' = node ∧ fp' = fpOf pkt
          · obtain ⟨e1, e2⟩ := hsame
            subst e1; subst e2
            rw [hstD, countDelivered_append_self, hcount0]
          · rw [hstD, countDelivered_append_other st1 node pkt n' fp' hsame]
            exact amo1 n' fp'
        have dcD : DelivCached stD := by
          intro n' fp' hpos
          by_cases hsame : n' = node ∧ fp' = fpOf pkt
          · obtain ⟨e1, e2⟩ := hsame
            rw [e1, e2]
            show fpOf pkt ∈ st1.caches node
            rw [hcn]
            exact List.mem_append_right _ (by simp)
          · rw [hstD, countDelivered_append_other st1 node pkt n' fp' hsame] at hpos
            exact dc1 n' fp' hpos
        have hinvD : SimInv stD := Or.inr ⟨amoD, dcD⟩
        have hinv1 : SimInv st1 := Or.inr ⟨amo1, dc1⟩
        split
        · apply hfold
          split
          · split
            · exact hfold _ _ _ hinvD
            · exact hinvD
          · exact hinv1
        · split
          · split
            · exact hfold _ _ _ hinvD
            · exact hinvD
          · exact hinv1

/-- C2: for every topology and every originated packet, each node's
`on_message_received` callback fires at most once per fingerprint
(`message_uuid`, `sender_uuid`) — any cycle back through a node's own
relay is dropped by the duplicate check because `_mark_as_seen` runs
before the deliver / ACK / relay steps.  The hypothesis records the one
regime boundary: no duplicate-cache eviction fired during the run (with a
single originated packet at most two fingerprints ever exist, far below
the 500-entry capacity, as the witness shows). -/
theorem at_most_once_delivery (fuel : Nat) (adj : Nat → List Nat)
    (now origin : Nat) (p0 : SimPacket)
    (hev : (runScenario fuel adj now origin p0).evicted = false) :
    ∀ node fp, countDelivered (runScenario fuel adj now origin p0) node fp ≤ 1 := by
  have hinit : SimInv initState := by
    refine Or.inr ⟨fun _ _ => ?_, fun _ _ h => ?_⟩
    · simp [countDelivered, initState]
    · simp [countDelivered, initState] at h
  have hinv : SimInv (runScenario fuel adj now origin p0) := by
    rw [runScenario]
    exact foldl_preserves SimInv _
      (fun s a hs => processAt_preserves_SimInv fuel adj now s a p0 hs)
      (adj origin) initState hinit
  cases hinv with
  | inl h => rw [hev] at h; cases h
  | inr h => exact h.1

/-- Witness for C2: the triangle SOS run never evicts, and node B's
delivery count for the SOS fingerprint is at most one. -/
theorem at_most_once_delivery_witness :
    (runScenario 20 triangleAdj 1000 0 sosPacketA).evicted = false
    ∧ countDelivered (runScenario 20 triangleAdj 1000 0 sosPacketA) 1
        (fpOf sosPacketA) ≤ 1 :=
  ⟨by decide,
    at_most_once_delivery 20 triangleAdj 1000 0 sosPacketA (by decide) 1
      (fpOf sosPacketA)⟩
